import Mathlib

/-!
Shallow embedding of the sigrok HDLC decoder (`src/pd.py`) and proofs about it.

The decoder is a bit-synchronous HDLC frame decoder: it consumes samples of
(clock, data, enable), processes data bits on qualifying clock edges, performs
HDLC bit-unstuffing (flag = six consecutive ones, abort = more than six,
stuffed zero after exactly five ones), and reassembles bits into bytes.

Modelling conventions:
- Sample indices (`samplenum` and the `ss_*` markers) are `Int`, since the
  source uses `-1` as a sentinel for "no previous sample".
- Channel levels (`clk`, `data`, `en`) are `Nat` (0/1 on wired channels).
- `self.put(ss, es, stream, payload)` calls are modelled as elements of the
  `Output` type, collected in order into a list returned next to the new state.
- `self.matched[0]` (did the wait condition on the clock channel match) is an
  explicit `Bool` argument of `find_clk_edge`.
- `self.options` and `self.have_en` are gathered in a `Config` record
  (`have_en` is assigned once in `decode` before the loop and only tested for
  truthiness afterwards, so a `Bool` is faithful).
- The fields `samplerate` (never used by the decode path) and the CRC-16
  routine (dead code, never invoked) are not modelled.
-/

/-- Mutable per-decoder state set up by `Decoder.reset` in `src/pd.py`. -/
structure DecState where
  bitcount : Nat                   -- Actual shifted bit number
  rxdata : Nat                     -- Received data byte
  rxbits : List (Nat × Int)        -- Received bits: [value, samplenum] pairs
  rxbytes : List (Int × Int × Nat) -- Received bytes (never appended by the code)
  prev_bit : Option Nat            -- Previous bit state (None before first bit)
  ss_prev_clock : Int              -- Previous clock samplenum (-1 sentinel)
  ss_prev_false : Int              -- samplenum at previous false (-1 sentinel)
  flag_found : Bool                -- Start flag found
  ss_flag : Int                    -- samplenum at start flag (-1 sentinel)
  one_count : Nat                  -- Number of consecutive 1
  prev_one_count : Nat             -- Previous number of consecutive 1
deriving DecidableEq, Repr

/-- The state produced by `Decoder.reset`. -/
def resetState : DecState :=
  { bitcount := 0
    rxdata := 0
    rxbits := []
    rxbytes := []
    prev_bit := none
    ss_prev_clock := -1
    ss_prev_false := -1
    flag_found := false
    ss_flag := -1
    one_count := 0
    prev_one_count := 0 }

/-- Decoder options plus the `have_en` flag computed in `decode`. -/
structure Config where
  en_polarity : String   -- 'active-low' or 'active-high'
  cpol : Nat             -- clock polarity option, 0 or 1
  have_en : Bool         -- whether the optional ENABLE channel is wired
deriving DecidableEq, Repr

/-- One `self.put(...)` call, tagged by the output stream and payload.
`annBit`, `annData`, `annDataType` go to the annotation stream
(`out_ann`); `pyCsChange` goes to the Python stream (`out_python`). -/
inductive Output where
  | annBit (ss es : Int) (bit : Option Nat)
  | annData (ss es : Int) (value : Nat)
  | annDataType (ss es : Int) (label : String)
  | pyCsChange (ss es : Int) (old new : Option Nat)
deriving DecidableEq, Repr

/-- `Decoder.en_asserted`: is ENABLE asserted given the configured polarity. -/
def en_asserted (cfg : Config) (en : Nat) : Bool :=
  let active_low := cfg.en_polarity == "active-low"
  if active_low then en == 0 else en == 1

/-- `Decoder.shift_bit`: when a flag has been found, OR the bit into
`rxdata` at position `bitcount`, append `[data, samplenum]` to `rxbits`
and increment `bitcount`. -/
def shift_bit (s : DecState) (data : Nat) (samplenum : Int) : DecState :=
  if s.flag_found then
    { s with rxdata := s.rxdata ||| (data <<< s.bitcount)
             rxbits := s.rxbits ++ [(data, samplenum)]
             bitcount := s.bitcount + 1 }
  else s

/-- `Decoder.handle_bit`: one qualifying clock edge.  Returns the new state
together with the `put` calls issued, in program order:
1. display the previous bit (if any);
2. emit FLAG/ABORT for the previously completed run of ones;
3. flush the completed byte when `bitcount == 8`;
4. run-length tracking and (un)stuffing for the current `data` bit. -/
def handle_bit (s : DecState) (data : Nat) (samplenum : Int) :
    DecState × List Output :=
  -- Displays bit
  let out1 : List Output :=
    if s.ss_prev_clock ≠ -1 then
      [Output.annBit s.ss_prev_clock samplenum s.prev_bit]
    else []
  let s := { s with ss_prev_clock := samplenum, prev_bit := some data }
  -- Flag
  let out2 : List Output :=
    if s.prev_one_count == 6 then
      [Output.annDataType s.ss_flag samplenum "FLAG"]
    else if s.prev_one_count > 6 then
      [Output.annDataType s.ss_flag samplenum "ABORT"]
    else []
  -- Display previsous data
  let flushed :=
    if s.bitcount == 8 then
      ({ s with rxdata := 0, bitcount := 0, rxbits := [] },
       [Output.annData (s.rxbits.headD (0, 0)).2 samplenum s.rxdata])
    else (s, ([] : List Output))
  let s := flushed.1
  let out3 := flushed.2
  -- Count number of 1
  let s :=
    if data == 1 then
      let s := shift_bit s data samplenum
      { s with one_count := s.one_count + 1 }
    else
      let s :=
        if s.one_count > 5 then
          { s with ss_flag := s.ss_prev_false, flag_found := false }
        else s
      let s :=
        if s.one_count == 6 then
          { s with flag_found := true, rxdata := 0, bitcount := 0, rxbits := [] }
        else if s.one_count < 5 then
          shift_bit s data samplenum
        else s
      { s with prev_one_count := s.one_count, one_count := 0,
               ss_prev_false := samplenum }
  (s, out1 ++ out2 ++ out3)

/-- `Decoder.find_clk_edge`: gate one delivered sample.  When ENABLE is wired
and deasserted, reset the accumulation state and return; ignore the bootstrap
sample and samples where the clock did not change (`matched0`); ignore the
clock level opposite to `cpol`; otherwise process the bit. -/
def find_clk_edge (cfg : Config) (s : DecState) (clk data en : Nat)
    (first matched0 : Bool) (samplenum : Int) : DecState × List Output :=
  -- We only care about samples if CS# is asserted.
  if cfg.have_en && !(en_asserted cfg en) then
    ({ s with rxdata := 0, bitcount := 0, rxbits := [], rxbytes := [],
              one_count := 0, ss_prev_clock := -1 }, [])
  -- Ignore sample if the clock pin hasn't changed.
  else if first || !matched0 then (s, [])
  -- Check clock
  else if cfg.cpol ≠ clk then (s, [])
  else handle_bit s data samplenum

/-- The startup exception raised by `decode`. -/
inductive ChannelError where
  | mk (msg : String)
deriving DecidableEq, Repr

/-- One sample delivered by `self.wait`: the channel levels, whether the
clock-edge wait condition matched, and the sample index. -/
structure Sample where
  clk : Nat
  data : Nat
  en : Nat
  matched0 : Bool
  samplenum : Int
deriving DecidableEq, Repr

/-- The `while True` wait loop of `decode`: each delivered sample goes through
`find_clk_edge` with `first = False`; outputs are concatenated in order. -/
def run_loop (cfg : Config) (s : DecState) : List Sample → DecState × List Output
  | [] => (s, [])
  | smp :: rest =>
      let step := find_clk_edge cfg s smp.clk smp.data smp.en false smp.matched0
        smp.samplenum
      let next := run_loop cfg step.1 rest
      (next.1, step.2 ++ next.2)

/-- `Decoder.decode`: raise `ChannelError` when neither the clock channel
(index 0) nor the data channel (index 1) is wired; otherwise emit the synthetic
CS-CHANGE record when no ENABLE channel is wired, process the bootstrap sample
with `first = True`, then run the wait loop. -/
def decode (en_polarity : String) (cpol : Nat) (has0 has1 has2 : Bool)
    (samples : List Sample) : Except ChannelError (DecState × List Output) :=
  if !has0 && !has1 then
    Except.error (ChannelError.mk "Both clock and data pins required.")
  else
    let cfg : Config := { en_polarity := en_polarity, cpol := cpol, have_en := has2 }
    let out0 : List Output :=
      if !has2 then [Output.pyCsChange 0 0 none none] else []
    match samples with
    | [] => Except.ok (resetState, out0)
    | s0 :: rest =>
        let step := find_clk_edge cfg resetState s0.clk s0.data s0.en true
          s0.matched0 s0.samplenum
        let next := run_loop cfg step.1 rest
        Except.ok (next.1, out0 ++ step.2 ++ next.2)

/-- Is this output a data-byte annotation (`ann_data`)? -/
def isData : Output → Bool
  | Output.annData _ _ _ => true
  | _ => false

/-- Is this output a frame-boundary record on the Python stream
(CS-CHANGE; the code contains no TRANSFER emission at all)? -/
def isFrameBoundary : Output → Bool
  | Output.pyCsChange _ _ _ _ => true
  | _ => false

/-- Iterate `handle_bit` over a list of (data bit, samplenum) pairs, i.e. over
a run of consecutive qualifying clock edges, concatenating outputs. -/
def run_bits (s : DecState) : List (Nat × Int) → DecState × List Output
  | [] => (s, [])
  | (d, n) :: rest =>
      let step := handle_bit s d n
      let next := run_bits step.1 rest
      (next.1, step.2 ++ next.2)

/-- `k` zero data bits on consecutive samples `base, base+1, ...` (a
stuffing-free input: no run of ones ever forms). -/
def zBits (base : Int) : Nat → List (Nat × Int)
  | 0 => []
  | k + 1 => (0, base) :: zBits (base + 1) k

/-- The expected data-byte annotation stream for `m` all-zero bytes whose
first bit sits at sample `base`: byte `i` spans `base + 8*i` to
`base + 8*(i+1)`. -/
def byteAnns (base : Int) : Nat → List Output
  | 0 => []
  | m + 1 => Output.annData base (base + 8) 0 :: byteAnns (base + 8) m

/-- The state invariant of the receive register: at most 8 bits,
`bitcount` equals the length of `rxbits`, and `rxdata` fits in `bitcount`
bits. -/
def RegInv (s : DecState) : Prop :=
  s.bitcount ≤ 8 ∧ s.bitcount = s.rxbits.length ∧ s.rxdata < 2 ^ s.bitcount

/- Concrete states used by the witness theorems. -/

/-- A mid-byte state that has just seen six consecutive ones. -/
def stSix : DecState :=
  { resetState with
    one_count := 6
    flag_found := false
    rxdata := 5
    bitcount := 3
    rxbits := [(1, 1), (0, 2), (1, 3)]
    ss_prev_false := 2 }

/-- A mid-byte state (flag found) that has just seen five consecutive ones. -/
def stFive : DecState :=
  { resetState with
    one_count := 5
    flag_found := true
    rxdata := 3
    bitcount := 2
    rxbits := [(1, 0), (1, 1)] }

/-- A state that has just seen nine consecutive ones (abort condition). -/
def stNine : DecState :=
  { resetState with
    one_count := 9
    flag_found := true
    ss_prev_false := 3 }

/-- A clean byte-boundary state right after a flag was found. -/
def stClean : DecState :=
  { resetState with
    flag_found := true
    prev_one_count := 6
    ss_flag := 2
    ss_prev_false := 9 }

/-- A mid-byte state with the flag found, used for reset/invariant witnesses. -/
def stMid : DecState :=
  { resetState with
    flag_found := true
    rxdata := 7
    bitcount := 3
    rxbits := [(1, 1), (1, 2), (1, 3)]
    prev_one_count := 6
    ss_prev_false := 4
    ss_flag := 2
    prev_bit := some 1 }

/-- An ENABLE-wired, active-high, cpol = 1 configuration. -/
def cfgEn : Config := { en_polarity := "active-high", cpol := 1, have_en := true }

/-- A sample literal, for concrete decode runs. -/
def mkSample (c d e : Nat) (m : Bool) (n : Int) : Sample :=
  { clk := c, data := d, en := e, matched0 := m, samplenum := n }

/-! ## Helper lemmas -/

/-- On a 0 data bit ending a run of exactly six ones, `handle_bit` sets the
flag and clears the receive register, whatever the prior state was. -/
lemma handle_bit_six (s : DecState) (n : Int) (h6 : s.one_count = 6) :
    (handle_bit s 0 n).1 =
      { s with prev_bit := some 0, ss_prev_clock := n,
               ss_flag := s.ss_prev_false, flag_found := true,
               rxdata := 0, bitcount := 0, rxbits := [],
               prev_one_count := 6, one_count := 0, ss_prev_false := n } := by
  by_cases hb : s.bitcount = 8 <;>
    simp [handle_bit, shift_bit, h6, hb]

/-- When the previously completed run of ones had length exactly 6, the FLAG
annotation from `ss_flag` to the current sample is among the outputs. -/
lemma handle_bit_emits_flag (t : DecState) (d : Nat) (n : Int)
    (h : t.prev_one_count = 6) :
    Output.annDataType t.ss_flag n "FLAG" ∈ (handle_bit t d n).2 := by
  by_cases hb : t.bitcount = 8 <;>
    by_cases hc : t.ss_prev_clock = -1 <;>
      simp [handle_bit, shift_bit, h, hb, hc]

/-- On a 0 data bit ending a run of more than six ones, `handle_bit` clears
the flag, latches the run length into `prev_one_count` and moves `ss_flag`
to the sample of the 0 that preceded the run. -/
lemma handle_bit_abort (s : DecState) (n : Int) (h : 6 < s.one_count) :
    (handle_bit s 0 n).1.flag_found = false ∧
    (handle_bit s 0 n).1.prev_one_count = s.one_count ∧
    (handle_bit s 0 n).1.ss_flag = s.ss_prev_false := by
  have h5 : 5 < s.one_count := by omega
  have h6 : ¬ s.one_count = 6 := by omega
  have hlt : ¬ s.one_count < 5 := by omega
  by_cases hb : s.bitcount = 8 <;>
    simp [handle_bit, shift_bit, h5, h6, hlt, hb]

/-- When the previously completed run of ones was longer than 6, the ABORT
annotation from `ss_flag` to the current sample is among the outputs. -/
lemma handle_bit_emits_abort (t : DecState) (d : Nat) (n : Int)
    (h : 6 < t.prev_one_count) :
    Output.annDataType t.ss_flag n "ABORT" ∈ (handle_bit t d n).2 := by
  have h6 : ¬ t.prev_one_count = 6 := by omega
  by_cases hb : t.bitcount = 8 <;>
    by_cases hc : t.ss_prev_clock = -1 <;>
      simp [handle_bit, shift_bit, h, h6, hb, hc]

/-- A 0 bit arriving with no run in progress and the flag found, away from a
byte boundary: it is shifted, and no data-byte annotation is emitted. -/
lemma handle_bit_zero_noflush (s : DecState) (n : Int) (hf : s.flag_found = true)
    (h1 : s.one_count = 0) (hb : s.bitcount ≠ 8) :
    (handle_bit s 0 n).1 =
      { s with prev_bit := some 0, ss_prev_clock := n,
               rxbits := s.rxbits ++ [(0, n)], bitcount := s.bitcount + 1,
               prev_one_count := 0, one_count := 0, ss_prev_false := n } ∧
    (handle_bit s 0 n).2.filter isData = [] := by
  constructor
  · simp [handle_bit, shift_bit, hf, h1, hb, Nat.zero_shiftLeft, Nat.or_zero]
  · by_cases hc : s.ss_prev_clock = -1 <;>
      by_cases hp6 : s.prev_one_count = 6 <;>
        by_cases hpg : 6 < s.prev_one_count <;>
          simp [handle_bit, shift_bit, isData, hf, h1, hb, hc, hp6, hpg]

/-- A 0 bit arriving with no run in progress and the flag found, at a byte
boundary (`bitcount = 8`): the completed byte is flushed — one data-byte
annotation spanning from the first buffered bit's sample to the current
sample — and the register restarts with just the new bit. -/
lemma handle_bit_zero_flush (s : DecState) (n : Int) (hf : s.flag_found = true)
    (h1 : s.one_count = 0) (hb : s.bitcount = 8) :
    (handle_bit s 0 n).1 =
      { s with prev_bit := some 0, ss_prev_clock := n,
               rxdata := 0, rxbits := [(0, n)], bitcount := 1,
               prev_one_count := 0, one_count := 0, ss_prev_false := n } ∧
    (handle_bit s 0 n).2.filter isData
      = [Output.annData (s.rxbits.headD (0, 0)).2 n s.rxdata] := by
  constructor
  · simp [handle_bit, shift_bit, hf, h1, hb, Nat.zero_shiftLeft, Nat.or_zero]
  · by_cases hc : s.ss_prev_clock = -1 <;>
      by_cases hp6 : s.prev_one_count = 6 <;>
        by_cases hpg : 6 < s.prev_one_count <;>
          simp [handle_bit, shift_bit, isData, hf, h1, hb, hc, hp6, hpg]

/-- `run_bits` distributes over list append. -/
lemma run_bits_append (s : DecState) (l1 l2 : List (Nat × Int)) :
    run_bits s (l1 ++ l2) =
      ((run_bits (run_bits s l1).1 l2).1,
       (run_bits s l1).2 ++ (run_bits (run_bits s l1).1 l2).2) := by
  induction l1 generalizing s with
  | nil => simp [run_bits]
  | cons hd tl ih =>
      obtain ⟨d, n⟩ := hd
      simp [run_bits, ih]

/-- Splitting a block of zero bits. -/
lemma zBits_add (j k : Nat) :
    ∀ base : Int, zBits base (j + k) = zBits base j ++ zBits (base + (j : Int)) k := by
  induction j with
  | zero => intro base; simp [zBits]
  | succ j ih =>
      intro base
      have e : j + 1 + k = (j + k) + 1 := by omega
      rw [e, zBits, zBits, ih (base + 1)]
      simp only [List.cons_append, List.append_assoc]
      have e2 : base + 1 + (j : Int) = base + ((j : Int) + 1) := by ring
      rw [e2]
      push_cast
      ring_nf

/-- Filling the register with `j ≤ 8 - bitcount` zero bits shifts each one and
emits no data-byte annotation. -/
lemma fill_zeros (j : Nat) :
    ∀ (s : DecState) (base : Int), s.flag_found = true → s.one_count = 0 →
      s.bitcount + j ≤ 8 →
      (run_bits s (zBits base j)).1.flag_found = true ∧
      (run_bits s (zBits base j)).1.one_count = 0 ∧
      (run_bits s (zBits base j)).1.bitcount = s.bitcount + j ∧
      (run_bits s (zBits base j)).1.rxbits = s.rxbits ++ zBits base j ∧
      (run_bits s (zBits base j)).1.rxdata = s.rxdata ∧
      (run_bits s (zBits base j)).2.filter isData = [] := by
  induction j with
  | zero => intro s base hf h1 _; simp [zBits, run_bits, hf, h1]
  | succ j ih =>
      intro s base hf h1 hle
      have hb : s.bitcount ≠ 8 := by omega
      obtain ⟨hst, hout⟩ := handle_bit_zero_noflush s base hf h1 hb
      obtain ⟨i1, i2, i3, i4, i5, i6⟩ := ih (handle_bit s 0 base).1 (base + 1)
        (by rw [hst]; simpa using hf) (by rw [hst])
        (by rw [hst]; simp only; omega)
      rw [zBits]
      simp only [run_bits]
      refine ⟨i1, i2, ?_, ?_, ?_, ?_⟩
      · rw [i3, hst]; simp only; omega
      · rw [i4, hst]; simp [zBits]
      · rw [i5, hst]
      · simp [List.filter_append, hout, i6]

/-- From a one-bit-into-the-byte state, each further block of 8 zero bits
produces exactly one data-byte annotation, with the documented span. -/
lemma byte_cycle (m : Nat) :
    ∀ (s : DecState) (a : Int), s.flag_found = true → s.one_count = 0 →
      s.bitcount = 1 → s.rxbits = [(0, a)] → s.rxdata = 0 →
      (run_bits s (zBits (a + 1) (8 * m))).2.filter isData = byteAnns a m ∧
      (run_bits s (zBits (a + 1) (8 * m))).1.flag_found = true ∧
      (run_bits s (zBits (a + 1) (8 * m))).1.one_count = 0 ∧
      (run_bits s (zBits (a + 1) (8 * m))).1.bitcount = 1 ∧
      (run_bits s (zBits (a + 1) (8 * m))).1.rxbits = [(0, a + 8 * m)] ∧
      (run_bits s (zBits (a + 1) (8 * m))).1.rxdata = 0 := by
  induction m with
  | zero =>
      intro s a hf h1 hbc hrb hrd
      simp [zBits, run_bits, byteAnns, hf, h1, hbc, hrb, hrd]
  | succ m ih =>
      intro s a hf h1 hbc hrb hrd
      have e1 : 8 * (m + 1) = 7 + (1 + 8 * m) := by omega
      have ebase : a + 1 + ((7 : Nat) : Int) = a + 8 := by push_cast; ring
      have ebase2 : a + 8 + ((1 : Nat) : Int) = a + 8 + 1 := by push_cast; ring
      rw [e1, zBits_add 7 (1 + 8 * m), ebase, zBits_add 1 (8 * m), ebase2]
      obtain ⟨f1, f2, f3, f4, f5, f6⟩ := fill_zeros 7 s (a + 1) hf h1 (by omega)
      set s7 := (run_bits s (zBits (a + 1) 7)).1 with hs7
      obtain ⟨g1, g2⟩ := handle_bit_zero_flush s7 (a + 8) f1 f2 (by omega)
      have hhead : (s7.rxbits.headD (0, 0)).2 = a := by
        rw [f4, hrb]; rfl
      have hrun1 : run_bits s7 (zBits (a + 8) 1) =
          ((handle_bit s7 0 (a + 8)).1, (handle_bit s7 0 (a + 8)).2) := by
        simp [zBits, run_bits]
      obtain ⟨j1, j2, j3, j4, j5, j6⟩ := ih (handle_bit s7 0 (a + 8)).1
        (a + 8) (by rw [g1]; simpa using f1) (by rw [g1])
        (by rw [g1]) (by rw [g1]) (by rw [g1])
      rw [run_bits_append, run_bits_append, hrun1]
      have e5 : a + 8 * ((m : Int) + 1) = a + 8 + 8 * (m : Int) := by ring
      refine ⟨?_, ?_, ?_, ?_, ?_, ?_⟩
      · simp only [List.filter_append, f6, List.nil_append, g2, hhead, f5, hrd]
        rw [j1]
        simp [byteAnns]
      · exact j2
      · exact j3
      · exact j4
      · rw [j5]
        push_cast
        rw [e5]
      · exact j6

/-! ## Claim theorems -/

/-- C1: on a qualifying edge delivering a 0 data bit right after a run of
exactly six consecutive 1 bits (`one_count = 6`), `handle_bit` sets
`flag_found` and clears `rxdata`, `bitcount` and `rxbits`, regardless of the
prior value of `flag_found` or of the register contents; and on the following
qualifying edge a FLAG annotation is emitted spanning from the flag-start
sample (the sample of the 0 that preceded the run, latched from
`ss_prev_false` into `ss_flag`) to that edge's sample. -/
theorem C1_flag_detection (s : DecState) (n n' : Int) (d' : Nat)
    (h6 : s.one_count = 6) :
    (handle_bit s 0 n).1.flag_found = true ∧
    (handle_bit s 0 n).1.rxdata = 0 ∧
    (handle_bit s 0 n).1.bitcount = 0 ∧
    (handle_bit s 0 n).1.rxbits = [] ∧
    Output.annDataType s.ss_prev_false n' "FLAG"
      ∈ (handle_bit (handle_bit s 0 n).1 d' n').2 := by
  rw [handle_bit_six s n h6]
  refine ⟨rfl, rfl, rfl, rfl, ?_⟩
  exact handle_bit_emits_flag _ d' n' rfl

/-- C1 witness: the flag-detection theorem applied to the concrete state
`stSix` (flag not yet found, three bits accumulated) at samples 10 and 11. -/
theorem C1_flag_detection_witness :
    (handle_bit stSix 0 10).1.flag_found = true ∧
    (handle_bit stSix 0 10).1.rxdata = 0 ∧
    (handle_bit stSix 0 10).1.bitcount = 0 ∧
    (handle_bit stSix 0 10).1.rxbits = [] ∧
    Output.annDataType stSix.ss_prev_false 11 "FLAG"
      ∈ (handle_bit (handle_bit stSix 0 10).1 1 11).2 :=
  C1_flag_detection stSix 10 11 1 (by decide)

/-- C2 counterexample: the claim's "bitcount does not change" fails on a
reachable byte-flush edge.  From the clean post-flag state, the bits
0,0,0,1,1,1,1,1 (a stream needing stuffing, e.g. byte 0xF8) leave
`bitcount = 8` with a just-ended run of exactly five 1s; the next qualifying
edge delivers the stuffed 0 and `bitcount` changes from 8 to 0, because the
byte flush runs on that edge even though the stuffed 0 itself is discarded. -/
theorem C2_counterexample :
    (run_bits stClean
        [(0, 10), (0, 11), (0, 12), (1, 13), (1, 14), (1, 15), (1, 16),
         (1, 17)]).1.one_count = 5 ∧
    (run_bits stClean
        [(0, 10), (0, 11), (0, 12), (1, 13), (1, 14), (1, 15), (1, 16),
         (1, 17)]).1.bitcount = 8 ∧
    (handle_bit (run_bits stClean
        [(0, 10), (0, 11), (0, 12), (1, 13), (1, 14), (1, 15), (1, 16),
         (1, 17)]).1 0 18).1.bitcount ≠
      (run_bits stClean
        [(0, 10), (0, 11), (0, 12), (1, 13), (1, 14), (1, 15), (1, 16),
         (1, 17)]).1.bitcount := by decide

/-- C2 (amended): bit unstuffing on a qualifying edge away from a byte-flush
edge (`bitcount ≠ 8`; on a flush edge the independent byte flush clears the
register first, so the register fields do change there even though the
stuffed 0 is still discarded): (a) a 0 ending a run of exactly five 1s is
discarded — `rxdata`, `rxbits` and `bitcount` are untouched; (b) a 0 ending a
run of fewer than five 1s is shifted into the receive register as genuine
data when the flag has been found; (c) a 1 bit is shifted on arrival when the
flag has been found. -/
theorem C2_stuffed_zero (s : DecState) (n : Int) (hb : s.bitcount ≠ 8) :
    (s.one_count = 5 →
      (handle_bit s 0 n).1.rxdata = s.rxdata ∧
      (handle_bit s 0 n).1.rxbits = s.rxbits ∧
      (handle_bit s 0 n).1.bitcount = s.bitcount) ∧
    (s.one_count < 5 → s.flag_found = true →
      (handle_bit s 0 n).1.rxdata = s.rxdata ∧
      (handle_bit s 0 n).1.rxbits = s.rxbits ++ [(0, n)] ∧
      (handle_bit s 0 n).1.bitcount = s.bitcount + 1) ∧
    (s.flag_found = true →
      (handle_bit s 1 n).1.rxdata = s.rxdata ||| (1 <<< s.bitcount) ∧
      (handle_bit s 1 n).1.rxbits = s.rxbits ++ [(1, n)] ∧
      (handle_bit s 1 n).1.bitcount = s.bitcount + 1) := by
  refine ⟨fun h5 => ?_, fun hlt hf => ?_, fun hf => ?_⟩
  · simp [handle_bit, shift_bit, h5, hb]
  · have h6 : ¬ s.one_count = 6 := by omega
    have hgt : ¬ 5 < s.one_count := by omega
    simp [handle_bit, shift_bit, h6, hgt, hlt, hf, hb]
  · simp [handle_bit, shift_bit, hf, hb]

/-- C2 witness: the unstuffing theorem applied to the concrete state `stFive`
(two bits accumulated, flag found, run of five ones) at sample 10. -/
theorem C2_stuffed_zero_witness :
    (stFive.one_count = 5 →
      (handle_bit stFive 0 10).1.rxdata = stFive.rxdata ∧
      (handle_bit stFive 0 10).1.rxbits = stFive.rxbits ∧
      (handle_bit stFive 0 10).1.bitcount = stFive.bitcount) ∧
    (stFive.one_count < 5 → stFive.flag_found = true →
      (handle_bit stFive 0 10).1.rxdata = stFive.rxdata ∧
      (handle_bit stFive 0 10).1.rxbits = stFive.rxbits ++ [(0, 10)] ∧
      (handle_bit stFive 0 10).1.bitcount = stFive.bitcount + 1) ∧
    (stFive.flag_found = true →
      (handle_bit stFive 1 10).1.rxdata = stFive.rxdata ||| (1 <<< stFive.bitcount) ∧
      (handle_bit stFive 1 10).1.rxbits = stFive.rxbits ++ [(1, 10)] ∧
      (handle_bit stFive 1 10).1.bitcount = stFive.bitcount + 1) :=
  C2_stuffed_zero stFive 10 (by decide)

/-- C3: on a qualifying edge delivering a 0 after a run of more than six
consecutive 1 bits, `handle_bit` clears `flag_found` (no exception exists on
this path; processing continues), latches the run length, and on the following
qualifying edge an ABORT annotation is emitted spanning from the sample of the
0 preceding the run (`ss_prev_false`, latched into `ss_flag`) to that edge's
sample, covering the whole run. -/
theorem C3_abort_detection (s : DecState) (n n' : Int) (d' : Nat)
    (h : 6 < s.one_count) :
    (handle_bit s 0 n).1.flag_found = false ∧
    (handle_bit s 0 n).1.prev_one_count = s.one_count ∧
    (handle_bit s 0 n).1.ss_flag = s.ss_prev_false ∧
    Output.annDataType s.ss_prev_false n' "ABORT"
      ∈ (handle_bit (handle_bit s 0 n).1 d' n').2 := by
  obtain ⟨h1, h2, h3⟩ := handle_bit_abort s n h
  refine ⟨h1, h2, h3, ?_⟩
  have := handle_bit_emits_abort (handle_bit s 0 n).1 d' n' (by omega)
  rwa [h3] at this

/-- C3 witness: the abort theorem applied to the concrete state `stNine`
(run of nine ones, flag previously found) at samples 20 and 21. -/
theorem C3_abort_detection_witness :
    (handle_bit stNine 0 20).1.flag_found = false ∧
    (handle_bit stNine 0 20).1.prev_one_count = stNine.one_count ∧
    (handle_bit stNine 0 20).1.ss_flag = stNine.ss_prev_false ∧
    Output.annDataType stNine.ss_prev_false 21 "ABORT"
      ∈ (handle_bit (handle_bit stNine 0 20).1 0 21).2 :=
  C3_abort_detection stNine 20 21 0 (by decide)

/-- C4: with `flag_found` continuously true and no stuffing (an all-zero bit
stream), exactly one data-byte annotation is emitted per 8 shifted bits:
over `8*m + 1` qualifying edges starting from a clean register, the data-byte
annotation stream is exactly `byteAnns base m` (byte `i` spans from its first
bit's sample `base + 8*i` to the sample of the 9th bit's edge
`base + 8*(i+1)`); after 8 edges the byte is complete (`bitcount = 8`) but not
yet emitted; the emission happens on the following qualifying edge, spanning
from `rxbits[0][1] = base` to the current sample `base + 8`, and `rxdata`,
`bitcount`, `rxbits` are then cleared to 0, 0, `[]` before the current bit is
shifted into the fresh register. -/
theorem C4_byte_emission (s : DecState) (base : Int) (m : Nat)
    (hf : s.flag_found = true) (hbc : s.bitcount = 0) (hrb : s.rxbits = [])
    (hrd : s.rxdata = 0) (h1 : s.one_count = 0) :
    (run_bits s (zBits base (8 * m + 1))).2.filter isData = byteAnns base m ∧
    (run_bits s (zBits base 8)).2.filter isData = [] ∧
    (run_bits s (zBits base 8)).1.bitcount = 8 ∧
    (handle_bit (run_bits s (zBits base 8)).1 0 (base + 8)).2.filter isData
      = [Output.annData base (base + 8) 0] ∧
    (handle_bit (run_bits s (zBits base 8)).1 0 (base + 8)).1.rxdata = 0 ∧
    (handle_bit (run_bits s (zBits base 8)).1 0 (base + 8)).1.bitcount = 1 ∧
    (handle_bit (run_bits s (zBits base 8)).1 0 (base + 8)).1.rxbits
      = [(0, base + 8)] := by
  obtain ⟨f1, f2, f3, f4, f5, f6⟩ := fill_zeros 8 s base hf h1 (by omega)
  set s8 := (run_bits s (zBits base 8)).1 with hs8
  obtain ⟨g1, g2⟩ := handle_bit_zero_flush s8 (base + 8) f1 f2 (by omega)
  have hhead : (s8.rxbits.headD (0, 0)).2 = base := by
    rw [f4, hrb]; rfl
  refine ⟨?_, f6, by omega, ?_, by rw [g1], by rw [g1], by rw [g1]⟩
  · have e1 : 8 * m + 1 = 1 + 8 * m := by omega
    have e2 : base + ((1 : Nat) : Int) = base + 1 := by push_cast; ring
    rw [e1, zBits_add 1 (8 * m), e2, run_bits_append]
    have hrun1 : run_bits s (zBits base 1) =
        ((handle_bit s 0 base).1, (handle_bit s 0 base).2) := by
      simp [zBits, run_bits]
    obtain ⟨n1, n2⟩ := handle_bit_zero_noflush s base hf h1 (by omega)
    obtain ⟨j1, _, _, _, _, _⟩ := byte_cycle m (handle_bit s 0 base).1 base
      (by rw [n1]; simpa using hf) (by rw [n1]) (by rw [n1]; simp only; omega)
      (by rw [n1]; rw [hrb]; rfl) (by rw [n1]; simpa using hrd)
    rw [hrun1]
    simp only [List.filter_append, n2, List.nil_append, j1]
  · simp only [List.filter_append, g2, hhead, f5, hrd]

/-- C4 witness: the byte-emission theorem applied to the clean post-flag state
`stClean` at base sample 10 with one byte (`m = 1`). -/
theorem C4_byte_emission_witness :
    (run_bits stClean (zBits 10 (8 * 1 + 1))).2.filter isData = byteAnns 10 1 ∧
    (run_bits stClean (zBits 10 8)).2.filter isData = [] ∧
    (run_bits stClean (zBits 10 8)).1.bitcount = 8 ∧
    (handle_bit (run_bits stClean (zBits 10 8)).1 0 (10 + 8)).2.filter isData
      = [Output.annData 10 (10 + 8) 0] ∧
    (handle_bit (run_bits stClean (zBits 10 8)).1 0 (10 + 8)).1.rxdata = 0 ∧
    (handle_bit (run_bits stClean (zBits 10 8)).1 0 (10 + 8)).1.bitcount = 1 ∧
    (handle_bit (run_bits stClean (zBits 10 8)).1 0 (10 + 8)).1.rxbits
      = [(0, 10 + 8)] :=
  C4_byte_emission stClean 10 1 (by decide) (by decide) (by decide)
    (by decide) (by decide)

/-- C5 counterexample: the enable-deassert reset does NOT return all state to
its initial values — with ENABLE wired and deasserted (active-high, en = 0),
a state with `flag_found = true` keeps `flag_found = true`, while its initial
(reset) value is `false`. -/
theorem C5_counterexample :
    (find_clk_edge cfgEn stMid 1 0 0 false true 30).1.flag_found = true ∧
    resetState.flag_found = false := by decide

/-- C5 (amended): whenever ENABLE is wired and sampled deasserted,
`find_clk_edge` resets `rxdata`, `bitcount`, `rxbits`, `rxbytes`, `one_count`
and `ss_prev_clock` to their initial values and returns without any further
processing of the sample (no outputs); `flag_found` (together with
`prev_one_count`, `ss_prev_false`, `ss_flag` and `prev_bit`) retains its
prior value and is NOT cleared. -/
theorem C5_enable_reset (cfg : Config) (s : DecState) (clk data en : Nat)
    (first matched0 : Bool) (n : Int) (hen : cfg.have_en = true)
    (hdeas : en_asserted cfg en = false) :
    find_clk_edge cfg s clk data en first matched0 n =
      ({ s with rxdata := 0, bitcount := 0, rxbits := [], rxbytes := [],
                one_count := 0, ss_prev_clock := -1 }, []) := by
  simp [find_clk_edge, hen, hdeas]

/-- C5 witness: the amended frame-reset theorem applied to the concrete
mid-byte state `stMid` with ENABLE deasserted at sample 30. -/
theorem C5_enable_reset_witness :
    find_clk_edge cfgEn stMid 1 0 0 false true 30 =
      ({ stMid with rxdata := 0, bitcount := 0, rxbits := [], rxbytes := [],
                    one_count := 0, ss_prev_clock := -1 }, []) :=
  C5_enable_reset cfgEn stMid 1 0 0 false true 30 (by decide) (by decide)

/-- C6 counterexample: a non-bootstrap sample whose clock level (0) differs
from the configured polarity (`cfgEn.cpol = 1`) does NOT always leave the
state unchanged: when ENABLE is wired and deasserted, the enable reset runs
first and mutates the state. -/
theorem C6_counterexample :
    cfgEn.cpol ≠ 0 ∧
    (find_clk_edge cfgEn stMid 0 0 0 false true 30).1 ≠ stMid := by decide

/-- C6 (amended): for every delivered non-bootstrap sample whose clock level
differs from `cpol`, processing leaves the decoder state completely unchanged
and emits nothing — provided the ENABLE gate does not fire first (the enable
channel is unwired or sampled asserted). -/
theorem C6_cpol_gate (cfg : Config) (s : DecState) (clk data en : Nat)
    (matched0 : Bool) (n : Int)
    (hen : cfg.have_en = false ∨ en_asserted cfg en = true)
    (hclk : cfg.cpol ≠ clk) :
    find_clk_edge cfg s clk data en false matched0 n = (s, []) := by
  rcases hen with h | h <;>
    cases matched0 <;>
      simp [find_clk_edge, h, hclk]

/-- C6 witness: the amended clock-polarity gate theorem applied to the
concrete state `stMid` with ENABLE asserted and clock level 0 ≠ cpol = 1. -/
theorem C6_cpol_gate_witness :
    find_clk_edge cfgEn stMid 0 0 1 false true 30 = (stMid, []) :=
  C6_cpol_gate cfgEn stMid 0 0 1 true 30 (Or.inr (by decide)) (by decide)

/-- C7: `decode` raises the channel-configuration error — before any sample
is consumed, with the exact message of the source — if and only if neither
the clock channel (`has0`) nor the data channel (`has1`) is wired; when at
least one is wired, no error is raised and decoding proceeds to the wait
loop. -/
theorem C7_channel_check (ep : String) (cpol : Nat) (has0 has1 has2 : Bool)
    (samples : List Sample) :
    (decode ep cpol has0 has1 has2 samples =
        Except.error (ChannelError.mk "Both clock and data pins required.") ↔
      (has0 = false ∧ has1 = false)) ∧
    ((∃ p, decode ep cpol has0 has1 has2 samples = Except.ok p) ↔
      (has0 = true ∨ has1 = true)) := by
  cases has0 <;> cases has1 <;> cases samples <;> simp [decode]

/-- `handle_bit` never writes to the Python output stream: no put on
`out_python` occurs anywhere in it. -/
lemma handle_bit_no_py (s : DecState) (d : Nat) (n : Int) :
    (handle_bit s d n).2.filter isFrameBoundary = [] := by
  by_cases hb : s.bitcount = 8 <;>
    by_cases hc : s.ss_prev_clock = -1 <;>
      by_cases hp6 : s.prev_one_count = 6 <;>
        by_cases hpg : 6 < s.prev_one_count <;>
          simp [handle_bit, shift_bit, isFrameBoundary, hb, hc, hp6, hpg]

/-- `find_clk_edge` never writes to the Python output stream. -/
lemma find_clk_edge_no_py (cfg : Config) (s : DecState) (clk data en : Nat)
    (first matched0 : Bool) (n : Int) :
    (find_clk_edge cfg s clk data en first matched0 n).2.filter
      isFrameBoundary = [] := by
  simp only [find_clk_edge]
  repeat' split
  all_goals simp [handle_bit_no_py]

/-- The wait loop never writes to the Python output stream. -/
lemma run_loop_no_py (cfg : Config) (samples : List Sample) :
    ∀ s, (run_loop cfg s samples).2.filter isFrameBoundary = [] := by
  induction samples with
  | nil => intro s; simp [run_loop]
  | cons smp rest ih =>
      intro s
      simp [run_loop, List.filter_append, find_clk_edge_no_py, ih]

/-- C8 (code evaluated at the failing inputs): with the ENABLE channel wired
(`has2 = true`), the Python output stream of `decode` contains no
frame-boundary record at all for any sample trace — in particular no
CS-CHANGE record for any enable transition and no TRANSFER record at the end
of an enable-asserted block, contradicting the OUTPUT_PYTHON docstring of
`src/pd.py`. -/
theorem C8_no_frame_boundary_records (ep : String) (cpol : Nat)
    (samples : List Sample) :
    (decode ep cpol true true true samples).map
      (fun p => p.2.filter isFrameBoundary) = Except.ok [] := by
  cases samples with
  | nil => simp [decode, Except.map]
  | cons s0 rest =>
      simp [decode, Except.map, List.filter_append, find_clk_edge_no_py,
        run_loop_no_py]

/-- C9: when no ENABLE channel is wired (`has2 = false`) and decoding starts
(at least one mandatory channel wired), the Python output stream carries
exactly one synthetic CS-CHANGE record; it is the very first output, emitted
before any bit processing, and no further frame-boundary record follows for
the remainder of decoding. -/
theorem C9_synthetic_cs_change (ep : String) (cpol : Nat) (has0 has1 : Bool)
    (samples : List Sample) (h : has0 = true ∨ has1 = true) :
    (decode ep cpol has0 has1 false samples).map
        (fun p => (p.2.filter isFrameBoundary, p.2.head?))
      = Except.ok ([Output.pyCsChange 0 0 none none],
                   some (Output.pyCsChange 0 0 none none)) := by
  have hcond : (!has0 && !has1) = false := by
    rcases h with h | h <;> simp [h]
  cases samples with
  | nil => simp [decode, hcond, Except.map, isFrameBoundary]
  | cons s0 rest =>
      simp [decode, hcond, Except.map, List.filter_append, find_clk_edge_no_py,
        run_loop_no_py, isFrameBoundary]

/-- C9 witness: the synthetic CS-CHANGE theorem applied to a concrete
two-sample trace with both mandatory channels wired and no ENABLE channel. -/
theorem C9_synthetic_cs_change_witness :
    (decode "active-high" 1 true true false
        [mkSample 1 1 1 true 0, mkSample 1 1 1 true 1]).map
        (fun p => (p.2.filter isFrameBoundary, p.2.head?))
      = Except.ok ([Output.pyCsChange 0 0 none none],
                   some (Output.pyCsChange 0 0 none none)) :=
  C9_synthetic_cs_change "active-high" 1 true true
    [mkSample 1 1 1 true 0, mkSample 1 1 1 true 1] (Or.inl rfl)

/-- Setting bit `k` by OR keeps a `k`-bit value inside `k + 1` bits. -/
lemma or_shift_lt (x b k : Nat) (hx : x < 2 ^ k) (hb : b ≤ 1) :
    x ||| b <<< k < 2 ^ (k + 1) := by
  have hx2 : x < 2 ^ (k + 1) :=
    lt_of_lt_of_le hx (Nat.pow_le_pow_right (by norm_num) (Nat.le_succ _))
  have hb2 : b <<< k < 2 ^ (k + 1) := by
    rw [Nat.shiftLeft_eq]
    calc b * 2 ^ k ≤ 1 * 2 ^ k := Nat.mul_le_mul_right _ hb
      _ = 2 ^ k := one_mul _
      _ < 2 ^ (k + 1) := Nat.pow_lt_pow_right (by norm_num) (by omega)
  exact Nat.or_lt_two_pow hx2 hb2

/-- One qualifying edge preserves the register invariant (for a bit-valued
data input). -/
lemma handle_bit_inv (s : DecState) (data : Nat) (n : Int) (hd : data ≤ 1)
    (hinv : RegInv s) : RegInv (handle_bit s data n).1 := by
  obtain ⟨h8, hlen, hval⟩ := hinv
  have hd01 : data = 0 ∨ data = 1 := by omega
  by_cases hf : s.flag_found <;>
    by_cases hb : s.bitcount = 8 <;>
      rcases hd01 with hd0 | hd1 <;>
        by_cases h6 : s.one_count = 6 <;>
          by_cases hgt : 5 < s.one_count <;>
            by_cases hlt : s.one_count < 5 <;>
              first
                | omega
                | (simp [handle_bit, shift_bit, RegInv, hf, hb, hd0, h6, hgt,
                     hlt, Nat.zero_shiftLeft, Nat.or_zero]
                   <;>
                     first
                       | exact ⟨h8, hlen, hval⟩
                       | exact ⟨by omega, hlen, lt_of_lt_of_le hval
                           (Nat.pow_le_pow_right (by norm_num) (Nat.le_succ _))⟩
                       | exact ⟨by omega, hlen, or_shift_lt _ 1 _ hval
                           (by norm_num)⟩)
                | (simp [handle_bit, shift_bit, RegInv, hf, hb, hd1, h6, hgt,
                     hlt, Nat.zero_shiftLeft, Nat.or_zero]
                   <;>
                     first
                       | exact ⟨h8, hlen, hval⟩
                       | exact ⟨by omega, hlen, lt_of_lt_of_le hval
                           (Nat.pow_le_pow_right (by norm_num) (Nat.le_succ _))⟩
                       | exact ⟨by omega, hlen, or_shift_lt _ 1 _ hval
                           (by norm_num)⟩)

/-- Every delivered sample preserves the register invariant. -/
lemma find_clk_edge_inv (cfg : Config) (s : DecState) (clk data en : Nat)
    (first matched0 : Bool) (n : Int) (hd : data ≤ 1) (hinv : RegInv s) :
    RegInv (find_clk_edge cfg s clk data en first matched0 n).1 := by
  simp only [find_clk_edge]
  repeat' split
  all_goals
    first
      | exact handle_bit_inv s data n hd hinv
      | exact hinv
      | exact ⟨by norm_num, rfl, by norm_num⟩

/-- C10: on bit-valued data, every decoder operation preserves the invariant
`bitcount ≤ 8 ∧ bitcount = rxbits.length ∧ rxdata < 2 ^ bitcount`; the
invariant holds for the initial (reset) state; and whenever the byte-flush
branch runs (`bitcount = 8`), `rxbits` holds exactly 8 entries, so the access
`rxbits[0][1]` is in bounds. -/
theorem C10_register_invariant (cfg : Config) (s : DecState) (clk data en : Nat)
    (first matched0 : Bool) (n : Int) (hd : data ≤ 1) (hinv : RegInv s) :
    RegInv (find_clk_edge cfg s clk data en first matched0 n).1 ∧
    RegInv resetState ∧
    (s.bitcount = 8 → s.rxbits.length = 8 ∧ 0 < s.rxbits.length) := by
  refine ⟨find_clk_edge_inv cfg s clk data en first matched0 n hd hinv,
    ⟨by decide, rfl, by decide⟩, fun h8 => ?_⟩
  obtain ⟨h1, hlen, h3⟩ := hinv
  constructor <;> omega

/-- C10 witness: the invariant theorem applied to the concrete mid-byte state
`stMid` on a qualifying edge at sample 40. -/
theorem C10_register_invariant_witness :
    RegInv (find_clk_edge cfgEn stMid 1 1 1 false true 40).1 ∧
    RegInv resetState ∧
    (stMid.bitcount = 8 → stMid.rxbits.length = 8 ∧ 0 < stMid.rxbits.length) :=
  C10_register_invariant cfgEn stMid 1 1 1 false true 40 (by decide)
    ⟨by decide, by decide, by decide⟩
